import Mathlib

/-!
Verification development for the ReShade graphics-abstraction core
(`addon.hpp`: `api_object_impl` private data; Vulkan `device_impl`:
object identity table, transient descriptor pools, render-pass cache;
`ini_file`: load/save of INI values).

Shallow embedding: C++ containers become Lean lists, 64-bit values and
handles become `Nat` (the operations modelled here never overflow or wrap),
16-byte GUIDs become a pair of `Nat` halves exactly as the source stores
them (`uint64_t guid[2]`), and fallible or assertion-guarded operations
return `Option`.
-/

namespace Reshade

/-- A 16-byte GUID as `api_object_impl` stores it: two 8-byte halves
(`uint64_t guid[2]` in `addon.hpp`).  The source compares GUIDs with
`std::memcmp(it->guid, guid, 16) == 0`, which on this representation is
exactly structural equality of the two halves. -/
structure Guid where
  lo : Nat
  hi : Nat
deriving DecidableEq, Repr

/-- One entry of the private-data table (`struct private_data` in
`addon.hpp`): a 64-bit value and the 16-byte GUID key. -/
structure PrivateDataEntry where
  data : Nat
  guid : Guid
deriving DecidableEq, Repr

/-- The private-data table itself: `std::vector<private_data> _private_data`
of `api_object_impl`, in storage order. -/
abbrev PrivateDataTable := List PrivateDataEntry

/-- `api_object_impl::get_private_data` (`addon.hpp` lines 49-61): scan the
vector front to back, return the `data` of the first entry whose GUID
matches byte-for-byte, or 0 when none matches. -/
def get_private_data : PrivateDataTable → Guid → Nat
  | [], _ => 0
  | e :: rest, g => if e.guid = g then e.data else get_private_data rest g

/-- `api_object_impl::set_private_data` (`addon.hpp` lines 62-82): scan for
the first entry whose GUID matches; when found, overwrite its `data` if the
new value is non-zero, erase the entry if the new value is zero, and stop.
When no entry matches, append a new entry at the end only when the value is
non-zero. -/
def set_private_data : PrivateDataTable → Guid → Nat → PrivateDataTable
  | [], g, v => if v ≠ 0 then [⟨v, g⟩] else []
  | e :: rest, g, v =>
    if e.guid = g then
      if v ≠ 0 then { e with data := v } :: rest else rest
    else
      e :: set_private_data rest g v

/-- The destructor assertion `assert(_private_data.empty())` of
`api_object_impl::~api_object_impl` (`addon.hpp` line 94): it passes
exactly when the private-data table is empty. -/
def destructor_assert_passes (pd : PrivateDataTable) : Bool :=
  pd.isEmpty

/-- The table invariant: no two entries carry the same GUID. -/
def uniqueGuids (pd : PrivateDataTable) : Prop :=
  pd.Pairwise (fun a b => a.guid ≠ b.guid)

instance (pd : PrivateDataTable) : Decidable (uniqueGuids pd) := by
  unfold uniqueGuids
  infer_instance

/-- Tables reachable from the empty table by `set_private_data` calls:
every core object's table starts empty and is only ever mutated through
`set_private_data`. -/
inductive ReachableTable : PrivateDataTable → Prop
  | empty : ReachableTable []
  | step (pd : PrivateDataTable) (g : Guid) (v : Nat) :
      ReachableTable pd → ReachableTable (set_private_data pd g v)

/-- Every entry of `set_private_data pd g v` either carries GUID `g` or was
already an entry of `pd`. -/
theorem mem_set_private_data {pd : PrivateDataTable} {g : Guid} {v : Nat}
    {e : PrivateDataEntry} (he : e ∈ set_private_data pd g v) :
    e.guid = g ∨ e ∈ pd := by
  induction pd with
  | nil =>
    simp only [set_private_data] at he
    split at he
    · simp only [List.mem_singleton] at he
      subst he
      exact Or.inl rfl
    · simp at he
  | cons a rest ih =>
    simp only [set_private_data] at he
    split at he
    · split at he
      · rcases List.mem_cons.mp he with h | h
        · subst h
          rename_i hg _
          exact Or.inl hg
        · exact Or.inr (List.mem_cons_of_mem _ h)
      · exact Or.inr (List.mem_cons_of_mem _ he)
    · rcases List.mem_cons.mp he with h | h
      · subst h
        exact Or.inr (List.mem_cons_self _ _)
      · rcases ih h with h2 | h2
        · exact Or.inl h2
        · exact Or.inr (List.mem_cons_of_mem _ h2)

/-- `set_private_data` preserves GUID uniqueness of the table. -/
theorem uniqueGuids_set_private_data {pd : PrivateDataTable} (g : Guid)
    (v : Nat) (h : uniqueGuids pd) : uniqueGuids (set_private_data pd g v) := by
  induction pd with
  | nil =>
    unfold uniqueGuids set_private_data
    split <;> simp
  | cons a rest ih =>
    unfold uniqueGuids at h ⊢
    rw [List.pairwise_cons] at h
    obtain ⟨ha, hrest⟩ := h
    unfold set_private_data
    split
    · rename_i hg
      split
      · rw [List.pairwise_cons]
        exact ⟨fun b hb => by simpa using ha b hb, hrest⟩
      · exact hrest
    · rename_i hg
      rw [List.pairwise_cons]
      refine ⟨fun b hb => ?_, ih hrest⟩
      rcases mem_set_private_data hb with h2 | h2
      · rw [h2]
        exact hg
      · exact ha b h2

/-- Writing a non-zero value for GUID `g` and reading `g` back yields the
value, regardless of the prior table contents. -/
theorem get_set_same (pd : PrivateDataTable) (g : Guid) (v : Nat)
    (hv : v ≠ 0) : get_private_data (set_private_data pd g v) g = v := by
  induction pd with
  | nil => simp [set_private_data, get_private_data, hv]
  | cons a rest ih =>
    unfold set_private_data
    split
    · simp [get_private_data, hv, *]
    · rename_i hg
      simpa [get_private_data, hg] using ih

/-- On a table with unique GUIDs, writing the value 0 for GUID `g` leaves no
entry with GUID `g`. -/
theorem set_zero_removes {pd : PrivateDataTable} (g : Guid)
    (h : uniqueGuids pd) :
    ∀ e ∈ set_private_data pd g 0, e.guid ≠ g := by
  induction pd with
  | nil => simp [set_private_data]
  | cons a rest ih =>
    unfold uniqueGuids at h
    rw [List.pairwise_cons] at h
    obtain ⟨ha, hrest⟩ := h
    unfold set_private_data
    split
    · rename_i hg
      simp only [ne_eq, not_true_eq_false, if_false]
      intro e he hge
      exact ha e he (by rw [hge, hg])
    · rename_i hg
      intro e he
      rcases List.mem_cons.mp he with h2 | h2
      · subst h2
        exact hg
      · exact ih hrest e h2

/-- Reading a GUID that occurs in no entry of the table yields 0. -/
theorem get_of_not_mem {pd : PrivateDataTable} {g : Guid}
    (h : ∀ e ∈ pd, e.guid ≠ g) : get_private_data pd g = 0 := by
  induction pd with
  | nil => rfl
  | cons a rest ih =>
    unfold get_private_data
    rw [if_neg (h a (List.mem_cons_self _ _))]
    exact ih fun e he => h e (List.mem_cons_of_mem _ he)

/-- A write to GUID `g` does not change what is read back at any other
GUID `g'`. -/
theorem get_set_other (pd : PrivateDataTable) {g g' : Guid} (v : Nat)
    (hne : g' ≠ g) :
    get_private_data (set_private_data pd g v) g' = get_private_data pd g' := by
  induction pd with
  | nil =>
    unfold set_private_data
    split
    · simp [get_private_data, Ne.symm hne]
    · rfl
  | cons a rest ih =>
    unfold set_private_data
    split
    · rename_i hg
      have hag : a.guid ≠ g' := by rw [hg]; exact Ne.symm hne
      split
      · simp [get_private_data, hag]
      · simp [get_private_data, hag]
    · simp only [get_private_data]
      split
      · rfl
      · exact ih

/-- C1: on any table with unique GUIDs (the invariant of every reachable
table), `set_private_data g v` with `v ≠ 0` followed by
`get_private_data g` yields exactly `v`; `set_private_data g 0` removes the
entry for `g` (no entry with GUID `g` remains, so a read yields 0); a read
of a GUID that occurs in no entry yields 0; and a write to `g` leaves the
value read at every other GUID unchanged. -/
theorem C1_private_data_roundtrip (pd : PrivateDataTable) (g g' : Guid)
    (v w : Nat) (huniq : uniqueGuids pd) :
    (v ≠ 0 → get_private_data (set_private_data pd g v) g = v) ∧
    (∀ e ∈ set_private_data pd g 0, e.guid ≠ g) ∧
    get_private_data (set_private_data pd g 0) g = 0 ∧
    ((∀ e ∈ pd, e.guid ≠ g) → get_private_data pd g = 0) ∧
    (g' ≠ g →
      get_private_data (set_private_data pd g w) g' = get_private_data pd g') :=
  ⟨fun hv => get_set_same pd g v hv,
   set_zero_removes g huniq,
   get_of_not_mem (set_zero_removes g huniq),
   get_of_not_mem,
   fun hne => get_set_other pd w hne⟩

/-- Witness for C1 at a concrete one-entry table. -/
theorem C1_private_data_roundtrip_witness :
    get_private_data
      (set_private_data [⟨5, ⟨1, 2⟩⟩] ⟨3, 4⟩ 7) ⟨3, 4⟩ = 7 ∧
    get_private_data
      (set_private_data [⟨5, ⟨1, 2⟩⟩] ⟨3, 4⟩ 0) ⟨3, 4⟩ = 0 ∧
    get_private_data
      (set_private_data [⟨5, ⟨1, 2⟩⟩] ⟨3, 4⟩ 9) ⟨1, 2⟩ =
      get_private_data [⟨5, ⟨1, 2⟩⟩] ⟨1, 2⟩ := by
  have h := C1_private_data_roundtrip [⟨5, ⟨1, 2⟩⟩] ⟨3, 4⟩ ⟨1, 2⟩ 7 9
    (by decide)
  exact ⟨h.1 (by decide), h.2.2.1, h.2.2.2.2 (by decide)⟩

/-- C6: the destructor assertion `assert(_private_data.empty())` passes on
an empty private-data table and fails on every non-empty one: a non-empty
table at destruction is caught by the assertion, not recovered from. -/
theorem C6_destructor_assert :
    destructor_assert_passes [] = true ∧
    ∀ pd : PrivateDataTable, pd ≠ [] → destructor_assert_passes pd = false := by
  refine ⟨rfl, fun pd h => ?_⟩
  cases pd with
  | nil => exact absurd rfl h
  | cons a rest => rfl

/-- Witness for C6 at a concrete non-empty table. -/
theorem C6_destructor_assert_witness :
    destructor_assert_passes [⟨1, ⟨0, 0⟩⟩] = false :=
  C6_destructor_assert.2 [⟨1, ⟨0, 0⟩⟩] (by decide)

/-- C10: every private-data table reachable from the empty table through
`set_private_data` calls has at most one entry per GUID (pairwise-distinct
GUIDs), because `set_private_data` updates or erases the first matching
entry when the GUID is present and appends only when it is absent. -/
theorem C10_private_data_unique (pd : PrivateDataTable)
    (h : ReachableTable pd) : uniqueGuids pd := by
  induction h with
  | empty => exact List.Pairwise.nil
  | step pd g v _ ih => exact uniqueGuids_set_private_data g v ih

/-- Witness for C10 at a concretely reached table. -/
theorem C10_private_data_unique_witness :
    uniqueGuids (set_private_data (set_private_data [] ⟨1, 2⟩ 5) ⟨3, 4⟩ 6) :=
  C10_private_data_unique _
    (ReachableTable.step _ ⟨3, 4⟩ 6 (ReachableTable.step _ ⟨1, 2⟩ 5 ReachableTable.empty))

/-! ### Object identity table (`device_impl`, `src/unnamed/part_000`)

The Vulkan backend attaches a heap-allocated `object_data<type>` record to
each native handle through the driver's private-data slot
(`_dispatch_table.SetPrivateData` / `GetPrivateData` on
`_private_data_slot`).  The slot is modelled as an association list from the
key `(VkObjectType, native handle)` to the stored 64-bit tag (0 = no tag,
matching `GetPrivateData` returning 0 for a never-set slot), and the set of
live heap records is modelled as the list of their (non-zero) pointer
values. -/

/-- Update-or-insert on the association list backing the private-data slot. -/
def updateAssoc : List ((Nat × Nat) × Nat) → Nat × Nat → Nat →
    List ((Nat × Nat) × Nat)
  | [], k, v => [(k, v)]
  | (k', v') :: rest, k, v =>
    if k' = k then (k, v) :: rest else (k', v') :: updateAssoc rest k v

/-- State of a device's object identity table: the driver-side private-data
slot (`_private_data_slot`) and the set of live `object_data` records. -/
structure DeviceIdentity where
  tags : List ((Nat × Nat) × Nat)
  alive : List Nat
deriving DecidableEq, Repr

/-- `_dispatch_table.GetPrivateData(_orig, type, object, _private_data_slot, &v)`:
reads the tag stored for `(type, object)`, 0 when none was ever stored. -/
def getPrivateDataSlot (st : DeviceIdentity) (ty obj : Nat) : Nat :=
  match st.tags.lookup (ty, obj) with
  | some v => v
  | none => 0

/-- `_dispatch_table.SetPrivateData(_orig, type, object, _private_data_slot, v)`. -/
def setPrivateDataSlot (st : DeviceIdentity) (ty obj v : Nat) : DeviceIdentity :=
  { st with tags := updateAssoc st.tags (ty, obj) v }

/-- `device_impl::register_object` (`part_000` lines 89-95): allocate a new
`object_data` record (here the non-zero pointer `p`) and store it in the
private-data slot of `(type, object)`.  The source asserts
`object != VK_NULL_HANDLE`; that precondition appears as a hypothesis of
the theorems below. -/
def register_object (st : DeviceIdentity) (ty obj p : Nat) : DeviceIdentity :=
  { tags := (setPrivateDataSlot st ty obj p).tags, alive := p :: st.alive }

/-- `device_impl::unregister_object` (`part_000` lines 101-111): return
immediately on a null handle; otherwise read the stored record pointer,
`delete` the record (removing it from the live set; deleting a null pointer
is a no-op, as is erasing a value not in the list), and clear the tag to 0. -/
def unregister_object (st : DeviceIdentity) (ty obj : Nat) : DeviceIdentity :=
  if obj = 0 then st
  else
    let p := getPrivateDataSlot st ty obj
    { tags := (setPrivateDataSlot st ty obj 0).tags, alive := st.alive.erase p }

/-- `device_impl::get_private_data_for_object` (`part_000` lines 117-125):
`assert(object != VK_NULL_HANDLE)`, read the stored pointer,
`assert(private_data != 0)`, return it.  A tripped assertion is modelled as
`none`; a successful lookup as `some pointer`. -/
def get_private_data_for_object (st : DeviceIdentity) (ty obj : Nat) :
    Option Nat :=
  if obj = 0 then none
  else
    let p := getPrivateDataSlot st ty obj
    if p = 0 then none else some p

/-- Looking up the key just written into the association list yields the
written value. -/
theorem lookup_updateAssoc_same (l : List ((Nat × Nat) × Nat))
    (k : Nat × Nat) (v : Nat) : (updateAssoc l k v).lookup k = some v := by
  induction l with
  | nil => simp [updateAssoc, List.lookup]
  | cons a rest ih =>
    obtain ⟨k', v'⟩ := a
    by_cases hk : k' = k
    · subst hk
      simp [updateAssoc, List.lookup]
    · have hb : (k == k') = false :=
        beq_eq_false_iff_ne.mpr fun hh => hk hh.symm
      simp [updateAssoc, if_neg hk, List.lookup, hb, ih]

/-- Writing one key of the association list leaves every other key's lookup
unchanged. -/
theorem lookup_updateAssoc_other (l : List ((Nat × Nat) × Nat))
    {k k' : Nat × Nat} (v : Nat) (h : k' ≠ k) :
    (updateAssoc l k v).lookup k' = l.lookup k' := by
  have hb : (k' == k) = false := beq_eq_false_iff_ne.mpr h
  induction l with
  | nil => simp [updateAssoc, List.lookup, hb]
  | cons a rest ih =>
    obtain ⟨ka, va⟩ := a
    by_cases hk : ka = k
    · subst hk
      simp [updateAssoc, List.lookup, hb]
    · simp only [updateAssoc, if_neg hk, List.lookup]
      cases hka : (k' == ka) with
      | true => rfl
      | false => exact ih

/-- C4: `unregister_object` on a null native handle returns before touching
anything — it frees no metadata record, clears no tag, and leaves the whole
identity-table state unchanged; on a non-null handle it clears the tag of
`(type, object)` to zero, removes the stored metadata record from the live
set (the `delete`), and leaves every other key's tag unchanged. -/
theorem C4_unregister_null_noop (st : DeviceIdentity) (ty obj : Nat) :
    unregister_object st ty 0 = st ∧
    (obj ≠ 0 → st.alive.Nodup →
      getPrivateDataSlot (unregister_object st ty obj) ty obj = 0 ∧
      getPrivateDataSlot st ty obj ∉ (unregister_object st ty obj).alive ∧
      ∀ ty' obj', (ty', obj') ≠ (ty, obj) →
        getPrivateDataSlot (unregister_object st ty obj) ty' obj' =
          getPrivateDataSlot st ty' obj') := by
  constructor
  · simp [unregister_object]
  · intro hobj hnd
    refine ⟨?_, ?_, ?_⟩
    · simp only [unregister_object, if_neg hobj, getPrivateDataSlot,
        setPrivateDataSlot]
      rw [lookup_updateAssoc_same]
    · simp only [unregister_object, if_neg hobj]
      exact hnd.not_mem_erase
    · intro ty' obj' hne
      simp only [unregister_object, if_neg hobj, getPrivateDataSlot,
        setPrivateDataSlot]
      rw [lookup_updateAssoc_other _ _ hne]

/-- Witness for C4 at a concrete identity table holding one record. -/
theorem C4_unregister_null_noop_witness :
    unregister_object ⟨[((1, 42), 7)], [7]⟩ 1 0 = ⟨[((1, 42), 7)], [7]⟩ ∧
    getPrivateDataSlot (unregister_object ⟨[((1, 42), 7)], [7]⟩ 1 42) 1 42 = 0 ∧
    getPrivateDataSlot ⟨[((1, 42), 7)], [7]⟩ 1 42 ∉
      (unregister_object ⟨[((1, 42), 7)], [7]⟩ 1 42).alive := by
  have h := C4_unregister_null_noop ⟨[((1, 42), 7)], [7]⟩ 1 42
  have h2 := h.2 (by decide) (by decide)
  exact ⟨h.1, h2.1, h2.2.1⟩

/-- C5: `get_private_data_for_object` trips its assertion (modelled `none`)
on a null handle, and on a handle whose private-data slot holds 0 (never
registered or already unregistered); for a handle that is registered (tag
non-zero) it returns exactly the stored metadata pointer, in particular the
pointer just stored by `register_object`. -/
theorem C5_lookup_assertions (st : DeviceIdentity) (ty obj p : Nat) :
    get_private_data_for_object st ty 0 = none ∧
    (obj ≠ 0 → getPrivateDataSlot st ty obj = 0 →
      get_private_data_for_object st ty obj = none) ∧
    (obj ≠ 0 → p ≠ 0 →
      get_private_data_for_object (register_object st ty obj p) ty obj =
        some p) ∧
    (obj ≠ 0 → getPrivateDataSlot st ty obj = p → p ≠ 0 →
      get_private_data_for_object st ty obj = some p) := by
  refine ⟨rfl, ?_, ?_, ?_⟩
  · intro hobj hz
    simp [get_private_data_for_object, if_neg hobj, hz]
  · intro hobj hp
    have hreg : getPrivateDataSlot (register_object st ty obj p) ty obj = p := by
      simp only [register_object, getPrivateDataSlot, setPrivateDataSlot]
      rw [lookup_updateAssoc_same]
    simp [get_private_data_for_object, if_neg hobj, hreg, hp]
  · intro hobj hv hp
    simp [get_private_data_for_object, if_neg hobj, hv, hp]

/-- Witness for C5: assertion on null handle, assertion on an unregistered
handle, and exact recovery of a just-registered pointer. -/
theorem C5_lookup_assertions_witness :
    get_private_data_for_object ⟨[((1, 42), 7)], [7]⟩ 1 0 = none ∧
    get_private_data_for_object ⟨[((1, 42), 7)], [7]⟩ 1 5 = none ∧
    get_private_data_for_object
      (register_object ⟨[((1, 42), 7)], [7]⟩ 1 43 9) 1 43 = some 9 ∧
    get_private_data_for_object ⟨[((1, 42), 7)], [7]⟩ 1 42 = some 7 := by
  have h := C5_lookup_assertions ⟨[((1, 42), 7)], [7]⟩ 1 43 9
  have h5 := C5_lookup_assertions ⟨[((1, 42), 7)], [7]⟩ 1 5 9
  have h42 := C5_lookup_assertions ⟨[((1, 42), 7)], [7]⟩ 1 42 7
  exact ⟨h.1, h5.2.1 (by decide) (by decide),
    h.2.2.1 (by decide) (by decide),
    h42.2.2.2 (by decide) (by decide) (by decide)⟩

/-! ### Transient descriptor-pool ring (`device_impl`, `src/unnamed/part_000`) -/

/-- Number of transient descriptor pools in the ring:
`VkDescriptorPool _transient_descriptor_pool[4]` (`part_000` line 150). -/
def transientPoolCount : Nat := 4

/-- Modelled from the spec: the body of
`device_impl::advance_transient_descriptor_pool` is not in the corpus (only
its declaration, `part_000` line 87, and the ring fields
`_transient_descriptor_pool[4]` / `_transient_index = 0`, lines 150-151,
are).  Per spec §4.3 the call rotates the cursor to the next of the
`transientPoolCount` pools and reuses (resets) the pool it rotates onto.
Starting from index 0, after `r` rotations the cursor sits on pool
`r % transientPoolCount`; rotation number `r` reuses exactly that pool. -/
def poolOfRotation (r : Nat) : Nat := r % transientPoolCount

/-- A transient descriptor set, stamped with the rotation count at which it
was allocated; it was allocated from the pool the cursor pointed at then,
`poolOfRotation allocRotation`. -/
structure TransientSet where
  allocRotation : Nat
deriving DecidableEq, Repr

/-- Modelled from the spec: a transient descriptor set is still valid at
rotation count `R` when no rotation since its allocation has reused the
pool it was allocated from (spec §4.3: advancing "implicitly invalidates
all descriptor sets previously allocated from the pool now being
reused"). -/
def transient_set_valid (s : TransientSet) (R : Nat) : Prop :=
  ∀ r < R + 1, s.allocRotation < r →
    poolOfRotation r ≠ poolOfRotation s.allocRotation

instance (s : TransientSet) (R : Nat) : Decidable (transient_set_valid s R) :=
  Nat.decidableBallLT _ _

/-- C3: a transient descriptor set allocated immediately after rotation `K`
is valid through rotation `K + 3` but never valid once rotation `K + 4`
(= `K + transientPoolCount`) has happened, because the cursor advances
cyclically and rotation `K + 4` reuses exactly the pool the set was
allocated from. -/
theorem C3_transient_set_invalidated (K R : Nat) :
    (R < K + transientPoolCount → transient_set_valid ⟨K⟩ R) ∧
    (K + transientPoolCount ≤ R → ¬ transient_set_valid ⟨K⟩ R) := by
  constructor
  · intro hR
    show ∀ r < R + 1, K < r →
      r % transientPoolCount ≠ K % transientPoolCount
    intro r hrR hKr heq
    have hdvd : transientPoolCount ∣ r - K :=
      (Nat.modEq_iff_dvd' (Nat.le_of_lt hKr)).mp heq.symm
    have hpos : 0 < r - K := Nat.sub_pos_of_lt hKr
    have h4 : transientPoolCount ≤ r - K := Nat.le_of_dvd hpos hdvd
    omega
  · intro hR hvalid
    have hv : ∀ r < R + 1, K < r →
        r % transientPoolCount ≠ K % transientPoolCount := hvalid
    exact hv (K + transientPoolCount) (by omega)
      (by simp only [transientPoolCount]; omega)
      (Nat.add_mod_right K transientPoolCount)

/-- Witness for C3 at `K = 2`: the set is valid at rotation 5 and invalid
at rotation 6. -/
theorem C3_transient_set_invalidated_witness :
    transient_set_valid ⟨2⟩ 5 ∧ ¬ transient_set_valid ⟨2⟩ 6 :=
  ⟨(C3_transient_set_invalidated 2 5).1 (by decide),
   (C3_transient_set_invalidated 2 6).2 (by decide)⟩

/-! ### Render-pass-compatibility cache (`device_impl`, `src/unnamed/part_000`) -/

/-- `VkRenderPassBeginInfo` as cached in `_render_pass_lookup`
(`part_000` line 156): the native render-pass and framebuffer handles, the
render area, and the clear values.  Structural equality of this record
models the byte-for-byte structural comparison of two begin infos. -/
structure RenderPassBeginInfo where
  renderPass : Nat
  framebuffer : Nat
  renderArea : Nat × Nat × Nat × Nat
  clearValues : List Nat
deriving DecidableEq, Repr

/-- The cache member
`std::unordered_map<size_t, VkRenderPassBeginInfo> _render_pass_lookup`
(`part_000` lines 155-156): an association from the structural hash (the
`size_t` key) to the stored begin info, at most one entry per hash. -/
abbrev RenderPassCache := List (Nat × RenderPassBeginInfo)

/-- Modelled from the spec: the code performing lookups in
`_render_pass_lookup` is not in the corpus (only the member declaration,
`part_000` lines 155-156, is).  Per spec §4.4 a path needing a
render-pass-compatible object hashes its begin info structurally, looks the
hash up, and "hash collisions are resolved by structural equality check
before reuse, never by hash alone": the stored begin info must compare
structurally equal to the query before its native render-pass object (the
`renderPass` handle the stored begin info carries) is reused; on a
structural mismatch — a hash collision — nothing is reused. -/
def render_pass_cache_lookup (cache : RenderPassCache) (h : Nat)
    (info : RenderPassBeginInfo) : Option Nat :=
  match cache.lookup h with
  | none => none
  | some stored => if stored = info then some stored.renderPass else none

/-- C2: a cache hit returns the stored native object only when the stored
begin info is structurally equal to the query (never by hash value alone);
consequently a structurally different query — even one with the very same
hash — reuses nothing, and two structurally equal queries obtain the same
cached native object. -/
theorem C2_render_pass_cache_structural (cache : RenderPassCache) (h : Nat)
    (info info₂ : RenderPassBeginInfo) (r : Nat) :
    (render_pass_cache_lookup cache h info = some r →
      cache.lookup h = some info ∧ r = info.renderPass) ∧
    (cache.lookup h = some info →
      render_pass_cache_lookup cache h info = some info.renderPass) ∧
    (∀ stored, cache.lookup h = some stored → stored ≠ info →
      render_pass_cache_lookup cache h info = none) ∧
    (info = info₂ →
      render_pass_cache_lookup cache h info =
        render_pass_cache_lookup cache h info₂) := by
  refine ⟨?_, ?_, ?_, ?_⟩
  · intro hr
    unfold render_pass_cache_lookup at hr
    split at hr
    · exact absurd hr (by simp)
    · rename_i stored hl
      split at hr
      · rename_i he
        subst he
        exact ⟨hl, (Option.some_inj.mp hr).symm⟩
      · exact absurd hr (by simp)
  · intro hl
    unfold render_pass_cache_lookup
    rw [hl]
    simp
  · intro stored hl hne
    unfold render_pass_cache_lookup
    rw [hl]
    simp [hne]
  · intro he
    rw [he]

/-- Witness for C2: a stored entry is reused by a structurally equal query
and not by a structurally different query under the same hash key. -/
theorem C2_render_pass_cache_structural_witness :
    render_pass_cache_lookup [(10, ⟨1, 2, (0, 0, 64, 64), [0]⟩)] 10
      ⟨1, 2, (0, 0, 64, 64), [0]⟩ = some 1 ∧
    render_pass_cache_lookup [(10, ⟨1, 2, (0, 0, 64, 64), [0]⟩)] 10
      ⟨3, 4, (0, 0, 64, 64), [0]⟩ = none := by
  have h1 := C2_render_pass_cache_structural
    [(10, ⟨1, 2, (0, 0, 64, 64), [0]⟩)] 10 ⟨1, 2, (0, 0, 64, 64), [0]⟩
    ⟨1, 2, (0, 0, 64, 64), [0]⟩ 1
  have h2 := C2_render_pass_cache_structural
    [(10, ⟨1, 2, (0, 0, 64, 64), [0]⟩)] 10 ⟨3, 4, (0, 0, 64, 64), [0]⟩
    ⟨3, 4, (0, 0, 64, 64), [0]⟩ 1
  exact ⟨h1.2.1 (by decide),
    h2.2.2.1 ⟨1, 2, (0, 0, 64, 64), [0]⟩ (by decide) (by decide)⟩

/-! ### Immutable device configuration (`device_impl`, `src/unnamed/part_000`) -/

/-- The members of `device_impl` declared `const` (`part_000` lines
127-139): the device and instance dispatch tables, the five
extension-availability booleans, and the enabled-feature set, all set once
in the constructor's initializer list.  The dispatch tables and the feature
structure are opaque to the claims, so their contents are modelled as raw
data. -/
structure DeviceConfig where
  dispatch_table : Nat
  instance_dispatch_table : Nat
  push_descriptor_ext : Bool
  dynamic_rendering_ext : Bool
  custom_border_color_ext : Bool
  extended_dynamic_state_ext : Bool
  conservative_rasterization_ext : Bool
  enabled_features : List Bool
deriving DecidableEq, Repr

/-- The full mutable-plus-immutable state of a `device_impl`: the `const`
configuration, the object identity table, the transient-pool rotation
count, and the private-data table of its `api_object_impl` base. -/
structure DeviceState where
  config : DeviceConfig
  identity : DeviceIdentity
  transient_rotation : Nat
  private_data : PrivateDataTable
deriving DecidableEq, Repr

/-- The state-mutating operations a `device_impl` exposes in the corpus:
transient-pool rotation (modelled from the spec, see `poolOfRotation`),
object registration/unregistration, and private-data writes. -/
inductive DeviceOp where
  | advance_transient_descriptor_pool : DeviceOp
  | register_obj (ty obj p : Nat) : DeviceOp
  | unregister_obj (ty obj : Nat) : DeviceOp
  | set_private (g : Guid) (v : Nat) : DeviceOp
deriving DecidableEq, Repr

/-- Apply one device operation to the device state.  Rotation bumps the
rotation counter (the cursor is `transient_rotation % transientPoolCount`);
the other operations are the embeddings defined above.  None of them — like
the C++ member functions, which cannot assign the `const` members — writes
the configuration. -/
def applyDeviceOp (st : DeviceState) : DeviceOp → DeviceState
  | .advance_transient_descriptor_pool =>
    { st with transient_rotation := st.transient_rotation + 1 }
  | .register_obj ty obj p =>
    { st with identity := register_object st.identity ty obj p }
  | .unregister_obj ty obj =>
    { st with identity := unregister_object st.identity ty obj }
  | .set_private g v =>
    { st with private_data := set_private_data st.private_data g v }

/-- C7: the enabled-feature set, both dispatch tables, and every
extension-availability boolean are fixed at device creation: no sequence of
device operations changes any field of the configuration. -/
theorem C7_device_config_immutable (st : DeviceState) (ops : List DeviceOp) :
    (ops.foldl applyDeviceOp st).config = st.config := by
  induction ops generalizing st with
  | nil => rfl
  | cons op rest ih =>
    rw [List.foldl_cons, ih]
    cases op <;> rfl

/-! ### INI value serialization and parsing (`ini_file`, `src/unnamed/part_001`)

`ini_file::save` joins the string elements of a key with a single `','`,
doubling every `','` that occurs inside an element (lines 226-241);
`ini_file::load` splits a value line back into elements, treating `",,"`
as an escaped literal comma and splitting only on a single `','`
(lines 134-166).  Strings are embedded as `List Char`. -/

/-- The escaping in `ini_file::save` (lines 231-233):
`value.append(c == ',' ? 2 : 1, c)` — every comma in an element is written
twice, every other character once. -/
def escapeElement : List Char → List Char
  | [] => []
  | c :: rest =>
    if c = ',' then ',' :: ',' :: escapeElement rest
    else c :: escapeElement rest

/-- The value serialization in `ini_file::save` (lines 226-241): when the
element list is empty nothing is written; otherwise each escaped element is
appended followed by a `','` and the final trailing comma is removed with
`value.pop_back()`. -/
def serializeValue (elements : List (List Char)) : List Char :=
  if elements.isEmpty then []
  else ((elements.map (fun e => escapeElement e ++ [','])).flatten).dropLast

/-- The scan of `ini_file::load`'s splitting loop (lines 144-149): the
distance from the current offset to the splitting comma.  A `','`
immediately followed by another `','` is an escape sequence and is skipped
(`offset = found + 2`); a `','` not followed by one (`found + 1 < len`
fails or the next character differs) splits; when no comma remains the
scan answers the remaining length (`min(value.find_first_of(','), len)`). -/
def scanSplit : List Char → Nat
  | [] => 0
  | [c] => if c = ',' then 0 else 1
  | c :: c2 :: rest =>
    if c = ',' then
      if c2 = ',' then 2 + scanSplit rest else 0
    else 1 + scanSplit (c2 :: rest)

/-- The element-rebuilding inner loop of `ini_file::load` (lines 155-162):
copy the segment before the splitting comma, collapsing each `",,"` escape
pair into a single literal `','`. -/
def unescapeSegment : List Char → List Char
  | [] => []
  | [c] => [c]
  | c :: c2 :: rest =>
    if c = ',' then
      if c2 = ',' then ',' :: unescapeSegment rest
      else ',' :: unescapeSegment (c2 :: rest)
    else c :: unescapeSegment (c2 :: rest)

/-- The splitting loop of `ini_file::load` (lines 142-166): find the
splitting comma, emit the unescaped segment before it, and continue after
it; when the scan reaches the end of the value the final segment is emitted
and the loop stops (`offset = found + 1 > len`). -/
def splitValue (s : List Char) : List (List Char) :=
  let n := scanSplit s
  if h : n < s.length then
    unescapeSegment (s.take n) :: splitValue (s.drop (n + 1))
  else
    [unescapeSegment (s.take n)]
termination_by s.length
decreasing_by simp only [List.length_drop]; omega

/-- The full value handling of `ini_file::load` (lines 134-166): an empty
value stores the key with no elements (lines 134-138), a non-empty value is
split into elements. -/
def parseValueLine (value : List Char) : List (List Char) :=
  if value.isEmpty then [] else splitValue value

/-- The serialized elements of one key as they appear between the
separating commas: escaped elements joined by a single `','`.  For a
non-empty element list this is what `serializeValue` produces. -/
def serializeElems : List (List Char) → List Char
  | [] => []
  | [e] => escapeElement e
  | e :: rest => escapeElement e ++ ',' :: serializeElems rest

theorem escapeElement_ne_nil {e : List Char} (h : e ≠ []) :
    escapeElement e ≠ [] := by
  cases e with
  | nil => exact absurd rfl h
  | cons c rest =>
    unfold escapeElement
    split <;> simp

/-- Unfolding the escape of a leading comma. -/
theorem escapeElement_comma (rest : List Char) :
    escapeElement (',' :: rest) = ',' :: ',' :: escapeElement rest := by
  simp [escapeElement]

/-- Unfolding the escape of a leading non-comma character. -/
theorem escapeElement_of_ne {c : Char} (hc : c ≠ ',') (rest : List Char) :
    escapeElement (c :: rest) = c :: escapeElement rest := by
  simp [escapeElement, hc]

theorem dropLast_flatten_eq_serializeElems (es : List (List Char))
    (h : es ≠ []) :
    ((es.map (fun x => escapeElement x ++ [','])).flatten).dropLast =
      serializeElems es := by
  induction es with
  | nil => exact absurd rfl h
  | cons e rest ih =>
    rw [List.map_cons, List.flatten_cons]
    cases rest with
    | nil =>
      rw [List.map_nil, List.flatten_nil, List.append_nil,
        List.dropLast_concat]
      rfl
    | cons r rs =>
      have hF : ((r :: rs).map (fun x => escapeElement x ++ [','])).flatten ≠ [] := by
        simp
      rw [List.dropLast_append_of_ne_nil _ hF, ih (by simp),
        List.append_assoc]
      rfl

theorem serializeValue_eq_serializeElems (es : List (List Char))
    (h : es ≠ []) : serializeValue es = serializeElems es := by
  cases es with
  | nil => exact absurd rfl h
  | cons e rest =>
    rw [serializeValue, if_neg (by simp)]
    exact dropLast_flatten_eq_serializeElems (e :: rest) (by simp)

/-- The scan advances one position over a non-comma character. -/
theorem scanSplit_cons_of_ne {c : Char} (hc : c ≠ ',') (l : List Char) :
    scanSplit (c :: l) = 1 + scanSplit l := by
  cases l with
  | nil => simp [scanSplit, hc]
  | cons c2 rest => simp [scanSplit, hc]

/-- The rebuild loop copies a non-comma character and continues. -/
theorem unescapeSegment_cons_of_ne {c : Char} (hc : c ≠ ',') (l : List Char) :
    unescapeSegment (c :: l) = c :: unescapeSegment l := by
  cases l with
  | nil => simp [unescapeSegment, hc]
  | cons c2 rest => simp [unescapeSegment, hc]

/-- The rebuild loop collapses a leading escape pair into one comma. -/
theorem unescapeSegment_comma_comma (l : List Char) :
    unescapeSegment (',' :: ',' :: l) = ',' :: unescapeSegment l := by
  simp [unescapeSegment]

/-- The scan skips a leading escape pair. -/
theorem scanSplit_comma_comma (l : List Char) :
    scanSplit (',' :: ',' :: l) = 2 + scanSplit l := by
  simp [scanSplit]

/-- Unescaping undoes the escaping of one element. -/
theorem unescapeSegment_escapeElement (e : List Char) :
    unescapeSegment (escapeElement e) = e := by
  induction e with
  | nil => rfl
  | cons c rest ih =>
    by_cases hc : c = ','
    · subst hc
      rw [escapeElement_comma, unescapeSegment_comma_comma, ih]
    · rw [escapeElement_of_ne hc, unescapeSegment_cons_of_ne hc, ih]

/-- The scan finds no splitting comma inside an escaped element standing at
the end of the value: it answers the element's full length. -/
theorem scanSplit_escapeElement (e : List Char) :
    scanSplit (escapeElement e) = (escapeElement e).length := by
  induction e with
  | nil => rfl
  | cons c rest ih =>
    by_cases hc : c = ','
    · subst hc
      rw [escapeElement_comma, scanSplit_comma_comma, ih]
      simp only [List.length_cons]
      omega
    · rw [escapeElement_of_ne hc, scanSplit_cons_of_ne hc, ih,
        List.length_cons]
      omega

/-- The scan over an escaped element followed by a separating comma and a
remainder not beginning with a comma splits exactly at the separator. -/
theorem scanSplit_escapeElement_sep (e : List Char) (rest : List Char)
    (hr : rest.head? ≠ some ',') :
    scanSplit (escapeElement e ++ ',' :: rest) = (escapeElement e).length := by
  induction e with
  | nil =>
    cases rest with
    | nil => rfl
    | cons x xs =>
      have hx : x ≠ ',' := by
        intro hcontra
        exact hr (by rw [hcontra]; rfl)
      simp [scanSplit, hx, escapeElement]
  | cons c rest2 ih =>
    by_cases hc : c = ','
    · subst hc
      rw [escapeElement_comma, List.cons_append, List.cons_append,
        scanSplit_comma_comma, ih]
      simp only [List.length_cons]
      omega
    · rw [escapeElement_of_ne hc, List.cons_append,
        scanSplit_cons_of_ne hc, ih, List.length_cons]
      omega

/-- The splitting loop on a single escaped element (no separator left)
emits exactly that element. -/
theorem splitValue_escapeElement (e : List Char) :
    splitValue (escapeElement e) = [e] := by
  rw [splitValue]
  simp only [scanSplit_escapeElement]
  rw [dif_neg (lt_irrefl _), List.take_length, unescapeSegment_escapeElement]

/-- The splitting loop on an escaped element, a separating comma, and a
remainder not beginning with a comma emits the element and continues on the
remainder. -/
theorem splitValue_escapeElement_sep (e : List Char) (rest : List Char)
    (hr : rest.head? ≠ some ',') :
    splitValue (escapeElement e ++ ',' :: rest) = e :: splitValue rest := by
  rw [splitValue]
  simp only [scanSplit_escapeElement_sep e rest hr]
  rw [dif_pos (by simp)]
  have ht : (escapeElement e ++ ',' :: rest).take (escapeElement e).length =
      escapeElement e := List.take_left _ _
  have hd : (escapeElement e ++ ',' :: rest).drop
      ((escapeElement e).length + 1) = rest := by
    rw [List.append_cons]
    have hl : (escapeElement e ++ [',']).length =
        (escapeElement e).length + 1 := by simp
    rw [← hl, List.drop_left]
  rw [ht, hd, unescapeSegment_escapeElement]

/-- The serialization of a list whose first element is non-empty and does
not begin with a comma does not begin with a comma. -/
theorem serializeElems_head_ne_comma (r : List Char) (rs : List (List Char))
    (hr : r ≠ []) (hh : r.head? ≠ some ',') :
    (serializeElems (r :: rs)).head? ≠ some ',' := by
  cases r with
  | nil => exact absurd rfl hr
  | cons c cr =>
    have hc : c ≠ ',' := by
      intro h
      exact hh (by rw [h]; rfl)
    cases rs with
    | nil =>
      show (escapeElement (c :: cr)).head? ≠ some ','
      rw [escapeElement_of_ne hc]
      simp [hc]
    | cons r2 rs2 =>
      show (escapeElement (c :: cr) ++ ',' :: serializeElems (r2 :: rs2)).head? ≠
        some ','
      rw [escapeElement_of_ne hc]
      simp [hc]

/-- The splitting loop inverts the serialization for any non-empty list of
non-empty elements none of which (after the first) begins with a comma. -/
theorem splitValue_serializeElems (es : List (List Char)) (hne : es ≠ [])
    (h1 : ∀ e ∈ es, e ≠ []) (h2 : ∀ e ∈ es.tail, e.head? ≠ some ',') :
    splitValue (serializeElems es) = es := by
  induction es with
  | nil => exact absurd rfl hne
  | cons e rest ih =>
    cases rest with
    | nil => exact splitValue_escapeElement e
    | cons r rs =>
      have hrne : r ≠ [] := h1 r (by simp)
      have hrh : r.head? ≠ some ',' := h2 r (by simp)
      show splitValue (escapeElement e ++ ',' :: serializeElems (r :: rs)) =
        e :: r :: rs
      rw [splitValue_escapeElement_sep e _
        (serializeElems_head_ne_comma r rs hrne hrh)]
      rw [ih (by simp) (fun x hx => h1 x (List.mem_cons_of_mem _ hx))
        (fun x hx => h2 x (List.mem_cons_of_mem _ hx))]

/-- Serialize-then-parse is the identity on every list of non-empty
elements none of which (after the first) begins with a comma. -/
theorem parse_serialize_of_wellFormed (es : List (List Char))
    (h1 : ∀ e ∈ es, e ≠ []) (h2 : ∀ e ∈ es.tail, e.head? ≠ some ',') :
    parseValueLine (serializeValue es) = es := by
  cases es with
  | nil => rfl
  | cons e rest =>
    rw [serializeValue_eq_serializeElems _ (by simp)]
    have hne : serializeElems (e :: rest) ≠ [] := by
      have he : e ≠ [] := h1 e (by simp)
      cases rest with
      | nil => exact escapeElement_ne_nil he
      | cons r rs =>
        show escapeElement e ++ ',' :: serializeElems (r :: rs) ≠ []
        simp
    rw [parseValueLine, if_neg (by simpa [List.isEmpty_iff] using hne)]
    exact splitValue_serializeElems (e :: rest) (by simp) h1 h2

/-- C8 counterexample: the round-trip fails as stated.  Serializing
`["a", ",b"]` doubles the leading comma of `",b"` and joins with a single
comma, producing `"a,,,b"`; the same string is produced by serializing
`["a,", "b"]`, and the load splitting rule parses it as `["a,", "b"]`
(it pairs comma escapes left to right), not as `["a", ",b"]`. -/
theorem C8_ini_value_roundtrip_counterexample :
    parseValueLine (serializeValue [['a'], [',', 'b']]) ≠ [['a'], [',', 'b']] := by
  have hs : serializeValue [['a'], [',', 'b']] =
      serializeValue [['a', ','], ['b']] := by decide
  have hrt := parse_serialize_of_wellFormed [['a', ','], ['b']]
    (by decide) (by decide)
  rw [hs, hrt]
  decide

/-- C8 (amended): serializing a list of elements with save's escaping and
re-parsing with load's splitting rule yields the original list for every
list in which every element is non-empty and no element after the first
begins with a comma.  (Unrestricted, the claim is false: an element after
the first beginning with a comma — or empty elements in certain positions —
make the doubled-comma encoding ambiguous at the separator, as the
counterexample `["a", ",b"]` shows.) -/
theorem C8_ini_value_roundtrip (es : List (List Char))
    (h1 : ∀ e ∈ es, e ≠ []) (h2 : ∀ e ∈ es.tail, e.head? ≠ some ',') :
    parseValueLine (serializeValue es) = es :=
  parse_serialize_of_wellFormed es h1 h2

/-- Witness for the amended C8 on a list with escaped commas. -/
theorem C8_ini_value_roundtrip_witness :
    parseValueLine (serializeValue [['a', ','], ['b', ',', 'c']]) =
      [['a', ','], ['b', ',', 'c']] :=
  C8_ini_value_roundtrip [['a', ','], ['b', ',', 'c']]
    (by decide) (by decide)

/-! ### `ini_file::save` control flow (`src/unnamed/part_001`) -/

/-- The in-memory state of an `ini_file` that `save` (lines 174-264) reads
and writes: the dirty flag `_modified`, the time stamp `_modified_at` of
the last load/save, and the section data (opaque to this claim, carried to
show it is untouched by the early return). -/
structure IniFileState where
  modified : Bool
  modified_at : Nat
  sections : List (List Char × List (List Char × List (List Char)))
deriving DecidableEq, Repr

/-- The file-system circumstances one `save` call runs under: whether
`last_write_time` reports an error code, the reported on-disk time, whether
the output stream opens, and the on-disk time after the write. -/
structure FsView where
  time_error : Bool
  disk_time : Nat
  open_ok : Bool
  time_after_write : Nat
deriving DecidableEq, Repr

/-- Result of one `save` call: the returned boolean, the post-call state,
and whether file contents were written. -/
structure SaveResult where
  ok : Bool
  state : IniFileState
  wrote : Bool
deriving DecidableEq, Repr

/-- `ini_file::save` (`part_001` lines 174-264): `if (!_modified) return
true;` before anything else; then `_modified = false` ("Reset state even on
failure to avoid 'flush_cache' repeatedly trying and failing to save");
then return false when the on-disk file is newer than `_modified_at`
(lines 182-185) or when the output stream does not open (lines 249-251);
otherwise write the data and refresh `_modified_at` from disk. -/
def ini_save (st : IniFileState) (fs : FsView) : SaveResult :=
  if st.modified = false then ⟨true, st, false⟩
  else
    let st1 : IniFileState := { st with modified := false }
    if fs.time_error = false ∧ st.modified_at < fs.disk_time then
      ⟨false, st1, false⟩
    else if fs.open_ok = false then
      ⟨false, st1, false⟩
    else
      ⟨true, { st1 with modified_at := fs.time_after_write }, true⟩

theorem ini_save_of_not_modified (st : IniFileState) (fs : FsView)
    (h : st.modified = false) : ini_save st fs = ⟨true, st, false⟩ := by
  simp [ini_save, h]

theorem ini_save_of_disk_newer (st : IniFileState) (fs : FsView)
    (h : st.modified = true)
    (hc : fs.time_error = false ∧ st.modified_at < fs.disk_time) :
    ini_save st fs = ⟨false, { st with modified := false }, false⟩ := by
  unfold ini_save
  rw [if_neg (by simp [h]), if_pos hc]

theorem ini_save_of_open_fail (st : IniFileState) (fs : FsView)
    (h : st.modified = true)
    (hc : ¬(fs.time_error = false ∧ st.modified_at < fs.disk_time))
    (ho : fs.open_ok = false) :
    ini_save st fs = ⟨false, { st with modified := false }, false⟩ := by
  unfold ini_save
  rw [if_neg (by simp [h]), if_neg hc, if_pos ho]

theorem ini_save_of_success (st : IniFileState) (fs : FsView)
    (h : st.modified = true)
    (hc : ¬(fs.time_error = false ∧ st.modified_at < fs.disk_time))
    (ho : ¬fs.open_ok = false) :
    ini_save st fs =
      ⟨true, { st with modified := false, modified_at := fs.time_after_write }, true⟩ := by
  unfold ini_save
  rw [if_neg (by simp [h]), if_neg hc, if_neg ho]

/-- C9: `save` returns true immediately, without writing, when the state is
unmodified, leaving the state untouched; after any call — early return,
failure, or success — the `_modified` flag is false; and when a modified
state fails to save, nothing was written yet the state still changed (the
flag was cleared before any disk access), so the save is not atomic on
error and is not retried with the same state. -/
theorem C9_save_clears_modified (st : IniFileState) (fs : FsView) :
    (st.modified = false → ini_save st fs = ⟨true, st, false⟩) ∧
    (ini_save st fs).state.modified = false ∧
    (st.modified = true → (ini_save st fs).ok = false →
      (ini_save st fs).wrote = false ∧ (ini_save st fs).state ≠ st) := by
  by_cases hm : st.modified = false
  · refine ⟨fun _ => ini_save_of_not_modified st fs hm, ?_, ?_⟩
    · rw [ini_save_of_not_modified st fs hm]
      exact hm
    · intro habs
      rw [habs] at hm
      exact absurd hm (by simp)
  · have hm1 : st.modified = true := by
      revert hm
      cases st.modified <;> simp
    have hchanged : ({ st with modified := false } : IniFileState) ≠ st := by
      intro hcontra
      have h2 := congrArg IniFileState.modified hcontra
      rw [hm1] at h2
      exact absurd h2 (by simp)
    by_cases hc : fs.time_error = false ∧ st.modified_at < fs.disk_time
    · rw [ini_save_of_disk_newer st fs hm1 hc]
      exact ⟨fun habs => absurd habs (by simp [hm1]), rfl,
        fun _ _ => ⟨rfl, hchanged⟩⟩
    · by_cases ho : fs.open_ok = false
      · rw [ini_save_of_open_fail st fs hm1 hc ho]
        exact ⟨fun habs => absurd habs (by simp [hm1]), rfl,
          fun _ _ => ⟨rfl, hchanged⟩⟩
      · rw [ini_save_of_success st fs hm1 hc ho]
        exact ⟨fun habs => absurd habs (by simp [hm1]), rfl,
          fun _ habs => absurd habs (by simp)⟩

/-- Witness for C9: an unmodified state early-returns unchanged, and a
modified state whose disk file is newer fails with the flag cleared and the
state changed. -/
theorem C9_save_clears_modified_witness :
    ini_save ⟨false, 5, []⟩ ⟨false, 9, true, 9⟩ =
      ⟨true, ⟨false, 5, []⟩, false⟩ ∧
    (ini_save ⟨true, 5, []⟩ ⟨false, 9, true, 9⟩).state.modified = false ∧
    (ini_save ⟨true, 5, []⟩ ⟨false, 9, true, 9⟩).wrote = false ∧
    (ini_save ⟨true, 5, []⟩ ⟨false, 9, true, 9⟩).state ≠ ⟨true, 5, []⟩ := by
  have h1 := C9_save_clears_modified ⟨false, 5, []⟩ ⟨false, 9, true, 9⟩
  have h2 := C9_save_clears_modified ⟨true, 5, []⟩ ⟨false, 9, true, 9⟩
  have hfail : (ini_save ⟨true, 5, []⟩ ⟨false, 9, true, 9⟩).ok = false := by
    rw [ini_save_of_disk_newer ⟨true, 5, []⟩ ⟨false, 9, true, 9⟩ rfl
      ⟨rfl, by decide⟩]
  have h3 := h2.2.2 rfl hfail
  exact ⟨h1.1 rfl, h2.2.1, h3.1, h3.2⟩
